import Mathlib

/-!
Shallow embedding of the posts API (src/posts/api.py) of the blog_api
repository: a small CRUD REST surface over a single `Post` resource,
guarded by content-negotiation decorators and a JSON-Schema body check.

The repository ships only `posts/api.py` and `tests/api_tests.py`; the
`decorators`, `models` and `database` modules it imports are absent, so
their behaviour (the Accept/Require guards, the `Post` record, the
session/store operations) is modelled from the specification's words
(§3, §4.1, §6 of the spec), as marked on each such definition.
Everything else is translated directly from `api.py`.
-/

namespace BlogApi

/-- A decoded JSON value, as far as the post schema can distinguish them:
a string, or one of the non-string primitives. -/
inductive JVal where
  | jstr : String → JVal
  | jnum : Int → JVal
  | jbool : Bool → JVal
  | jnull : JVal
deriving DecidableEq, Repr

/-- A decoded JSON object body: an association list of keys to values. -/
abbrev JObj := List (String × JVal)

/-- Modelled from the spec (§3): the `Post` entity of `models.py`, which is
not under src/ — attributes `id` (integer, store-generated), `title`
(string), `body` (string). -/
structure Post where
  id : Nat
  title : String
  body : String
deriving DecidableEq, Repr

/-- The JSON document carried by a response: an error/confirmation message
object `{"message": m}`, a serialized post `{"id", "title", "body"}`
(the image of `as_dictionary`), or an array of serialized posts. -/
inductive RespBody where
  | message : String → RespBody
  | record : Post → RespBody
  | records : List Post → RespBody
deriving DecidableEq, Repr

/-- A Flask `Response` as built in api.py: a JSON document, a status code,
a mimetype, and an optional `Location` header. -/
structure Response where
  body : RespBody
  status : Nat
  mimetype : String
  location : Option String := none
deriving DecidableEq, Repr

/-- Modelled from the spec (§6): the persistence collaborator, a record
store supporting get-by-id, add, delete, commit; `nextId` is the
store-generated identifier handed to the next added record. -/
structure Store where
  posts : List Post
  nextId : Nat
deriving DecidableEq, Repr

/-- The facts of an incoming request the gate and handlers consult:
`Accept` and `Content-Type` headers (possibly absent), the decoded JSON
object body, and the two optional query-string arguments. -/
structure Request where
  accept : Option String
  contentType : Option String
  reqBody : JObj
  title_like : Option String
  content_like : Option String
deriving DecidableEq, Repr

/-- Split a character list at every occurrence of `sep`. -/
def splitOnChar (sep : Char) : List Char → List (List Char)
  | [] => [[]]
  | c :: cs =>
    if c == sep then [] :: splitOnChar sep cs
    else
      match splitOnChar sep cs with
      | [] => [[c]]
      | l :: ls => (c :: l) :: ls

/-- Drop ASCII spaces from both ends of a character list. -/
def trimChars (l : List Char) : List Char :=
  ((l.dropWhile (· == ' ')).reverse.dropWhile (· == ' ')).reverse

/-- The type+subtype part of a media-type string: everything before the
first `;` (dropping parameters such as `charset` or `q` weights),
trimmed of surrounding spaces. -/
def mediaRange (l : List Char) : List Char :=
  trimChars (l.takeWhile (· != ';'))

/-- Modelled from the spec (§4.1): a single media-type pattern from an
`Accept` header matches a supported type when it is literally equal to
it, is the universal wildcard, or has the same type with subtype `*`. -/
def patMatches (pat target : List Char) : Bool :=
  pat == target || pat == ['*', '/', '*'] ||
    (match splitOnChar '/' pat, splitOnChar '/' target with
     | [pt, ps], tt :: _ => ps == ['*'] && pt == tt
     | _, _ => false)

/-- Modelled from the spec (§4.1): the decision rule of the Accept-guard
`decorators.accept` (not under src/). A missing header matches
everything; otherwise the header is a comma-separated list of patterns
and the guard accepts iff some declared supported type matches some
pattern. -/
def acceptOk (header : Option String) (supported : List String) : Bool :=
  match header with
  | none => true
  | some h =>
    supported.any fun t =>
      ((splitOnChar ',' h.toList).map mediaRange).any fun p =>
        patMatches p t.toList

/-- Modelled from the spec (§4.1): the decision rule of the Require-guard
`decorators.require` (not under src/). Accepts only when the
`Content-Type` header's type+subtype equals the required type exactly,
parameters ignored; a missing header is rejected. -/
def requireOk (contentType : Option String) (required : String) : Bool :=
  match contentType with
  | none => false
  | some c => mediaRange c.toList == required.toList

/-- The 406 response built by the Accept-guard on reject
(modelled from the spec §4.1/§8 and the test suite's expected message). -/
def notAcceptableResp (t : String) : Response :=
  { body := .message ("Request must accept " ++ t ++ " data"),
    status := 406, mimetype := "application/json" }

/-- The 415 response built by the Require-guard on reject
(modelled from the spec §4.1). -/
def unsupportedResp (t : String) : Response :=
  { body := .message ("Request must contain " ++ t ++ " data"),
    status := 415, mimetype := "application/json" }

/-- Look up a key in a decoded JSON object (first binding wins). -/
def lookupKey (o : JObj) (k : String) : Option JVal :=
  (o.find? (fun kv => kv.1 == k)).map (fun kv => kv.2)

/-- Whether a decoded JSON value is a string. -/
def isString : JVal → Bool
  | .jstr _ => true
  | _ => false

/-- Python-style repr of a decoded JSON value, used in type-error
messages the way jsonschema embeds the offending instance. -/
def jrepr : JVal → String
  | .jstr s => "'" ++ s ++ "'"
  | .jnum n => toString n
  | .jbool true => "True"
  | .jbool false => "False"
  | .jnull => "None"

/-- The jsonschema message for a missing required key. -/
def requiredMsg (k : String) : String :=
  "'" ++ k ++ "' is a required property"

/-- The jsonschema message for a value of the wrong type. -/
def typeMsg (v : JVal) : String :=
  jrepr v ++ " is not of type 'string'"

/-- Modelled from the spec (§4.2): one required-key check of the Schema
Validator — the key must be present and its value must be a string;
on failure the error message identifies the violated constraint. -/
def checkKey (o : JObj) (k : String) : Except String Unit :=
  match lookupKey o k with
  | none => .error (requiredMsg k)
  | some v => if isString v then .ok () else .error (typeMsg v)

/-- Modelled from the spec (§4.2): `jsonschema.validate` against
`post_schema` of api.py — `title` and `body` both required, both
strings; the first violated constraint is reported. -/
def validatePost (o : JObj) : Except String Unit :=
  match checkKey o "title" with
  | .error m => .error m
  | .ok _ => checkKey o "body"

/-- The string value at a key, after validation has established it is a
string (`data["title"]` / `data["body"]` in api.py). -/
def getString (o : JObj) (k : String) : String :=
  match lookupKey o k with
  | some (.jstr s) => s
  | _ => ""

/-- Modelled from the spec (§6): `session.query(Post).get(id)` — the
record with the given primary key, if any. -/
def Store.getPost (s : Store) (id : Nat) : Option Post :=
  s.posts.find? (fun p => p.id == id)

/-- Case-sensitive substring test on character lists: does `l` start
with `sub`? -/
def charsStartWith : List Char → List Char → Bool
  | _, [] => true
  | [], _ :: _ => false
  | c :: cs, d :: ds => c == d && charsStartWith cs ds

/-- Case-sensitive substring test on character lists: does `l` contain
`sub` anywhere? -/
def charsContain : List Char → List Char → Bool
  | [], sub => sub.isEmpty
  | c :: cs, sub => charsStartWith (c :: cs) sub || charsContain cs sub

/-- Modelled from the spec (§4.3): the case-sensitive substring predicate
behind `Post.title.contains(...)` / `Post.body.contains(...)`. -/
def strContains (s sub : String) : Bool :=
  charsContain s.toList sub.toList

/-- The ordering used by `order_by(models.Post.id)`: ascending id. -/
def byId (a b : Post) : Prop := a.id ≤ b.id

instance : DecidableRel byId := fun a b => Nat.decLe a.id b.id

instance : IsTotal Post byId := ⟨fun a b => Nat.le_total a.id b.id⟩

instance : IsTrans Post byId := ⟨fun _ _ _ => Nat.le_trans⟩

/-- Modelled from the spec (§4.3/§6): the store's `order_by` on the id
column — sort the records ascending by id. -/
def sortById (l : List Post) : List Post :=
  l.insertionSort byId

/-- The 404 response of api.py for an unknown post id. -/
def notFoundResp (id : Nat) : Response :=
  { body := .message ("Could not find post with id " ++ toString id),
    status := 404, mimetype := "application/json" }

/-- The Location header value `url_for("post_get", id=...)`. -/
def postLocation (id : Nat) : String :=
  "/api/posts/" ++ toString id

/-- One conditional filter step of `posts_get`: Python's
`if arg: posts = posts.filter(proj.contains(arg))` — no filter when the
argument is absent or empty (the empty string is falsy in Python). -/
def applyFilter (proj : Post → String) (arg : Option String) (posts : List Post) : List Post :=
  match arg with
  | none => posts
  | some s => if s = "" then posts else posts.filter fun p => strContains (proj p) s

/-- `posts_get` of api.py: list posts, optionally filtered by the
`title_like` and `content_like` query-string arguments, ordered by
id ascending. The Accept-guard wraps the handler. -/
def posts_get (store : Store) (req : Request) : Response × Store :=
  if !acceptOk req.accept ["application/json"] then
    (notAcceptableResp "application/json", store)
  else
    let posts := applyFilter Post.title req.title_like store.posts
    let posts := applyFilter Post.body req.content_like posts
    let posts := sortById posts
    ({ body := .records posts, status := 200, mimetype := "application/json" }, store)

/-- `post_get` of api.py: fetch one post by id, 404 with a message when
it does not exist. The Accept-guard wraps the handler. -/
def post_get (store : Store) (req : Request) (id : Nat) : Response × Store :=
  if !acceptOk req.accept ["application/json"] then
    (notAcceptableResp "application/json", store)
  else
    match store.getPost id with
    | none => (notFoundResp id, store)
    | some p => ({ body := .record p, status := 200, mimetype := "application/json" }, store)

/-- `post_delete` of api.py: 404 when the id is unknown, otherwise
`session.delete(post)` removes the fetched record and a 200
confirmation message is returned. The Accept-guard wraps the handler. -/
def post_delete (store : Store) (req : Request) (id : Nat) : Response × Store :=
  if !acceptOk req.accept ["application/json"] then
    (notAcceptableResp "application/json", store)
  else
    match store.getPost id with
    | none => (notFoundResp id, store)
    | some _ =>
      let store' := { store with posts := store.posts.eraseP (fun p => p.id == id) }
      ({ body := .message ("Deleted post with id " ++ toString id),
         status := 200, mimetype := "application/json" }, store')

/-- `posts_post` of api.py: Accept-guard, then Require-guard, then schema
validation (422 on failure), then a new `Post` is built from the body,
added and committed, and a 201 response with the record and a
`Location` header is returned. -/
def posts_post (store : Store) (req : Request) : Response × Store :=
  if !acceptOk req.accept ["application/json"] then
    (notAcceptableResp "application/json", store)
  else if !requireOk req.contentType "application/json" then
    (unsupportedResp "application/json", store)
  else
    match validatePost req.reqBody with
    | .error m =>
      ({ body := .message m, status := 422, mimetype := "application/json" }, store)
    | .ok _ =>
      let p : Post :=
        { id := store.nextId,
          title := getString req.reqBody "title",
          body := getString req.reqBody "body" }
      let store' : Store := { posts := store.posts ++ [p], nextId := store.nextId + 1 }
      ({ body := .record p, status := 201, mimetype := "application/json",
         location := some (postLocation p.id) }, store')

/-- `post_put` of api.py: Accept-guard, then Require-guard, then schema
validation (422 on failure), then the record with the given id is
fetched and mutated in place, added and committed, and a 202 response
with the record and a `Location` header is returned. There is no
not-found branch: when the id is unknown the fetch yields `None` and
the field assignment `post.body = ...` raises an unhandled
`AttributeError`, modelled as `none`. -/
def post_put (store : Store) (req : Request) (id : Nat) : Option (Response × Store) :=
  if !acceptOk req.accept ["application/json"] then
    some (notAcceptableResp "application/json", store)
  else if !requireOk req.contentType "application/json" then
    some (unsupportedResp "application/json", store)
  else
    match validatePost req.reqBody with
    | .error m =>
      some ({ body := .message m, status := 422, mimetype := "application/json" }, store)
    | .ok _ =>
      match store.getPost id with
      | none => none
      | some p =>
        let p' : Post :=
          { p with title := getString req.reqBody "title",
                   body := getString req.reqBody "body" }
        let store' : Store :=
          { store with posts := store.posts.map (fun q => if q.id = id then p' else q) }
        some ({ body := .record p', status := 202, mimetype := "application/json",
                location := some (postLocation p'.id) }, store')

/-- A decoded body violates the post schema: `title` or `body` is
missing, or is present with a non-string value. -/
def schemaViolated (o : JObj) : Prop :=
  lookupKey o "title" = none ∨ lookupKey o "body" = none ∨
  (∃ v, lookupKey o "title" = some v ∧ isString v = false) ∨
  (∃ v, lookupKey o "body" = some v ∧ isString v = false)

/-- The message `m` identifies a constraint of the post schema that `o`
actually violates: it is the required-key message of a missing key, or
the wrong-type message of a present non-string value. -/
def identifiesViolation (o : JObj) (m : String) : Prop :=
  (lookupKey o "title" = none ∧ m = requiredMsg "title") ∨
  (lookupKey o "body" = none ∧ m = requiredMsg "body") ∨
  (∃ v, lookupKey o "title" = some v ∧ isString v = false ∧ m = typeMsg v) ∨
  (∃ v, lookupKey o "body" = some v ∧ isString v = false ∧ m = typeMsg v)

/-! ### Helper lemmas -/

theorem charsContain_nil (l : List Char) : charsContain l [] = true := by
  cases l <;> rfl

theorem strContains_empty (s : String) : strContains s "" = true :=
  charsContain_nil s.toList

theorem mem_applyFilter (proj : Post → String) (arg : Option String)
    (posts : List Post) (p : Post) :
    p ∈ applyFilter proj arg posts ↔
      p ∈ posts ∧ ∀ s, arg = some s → strContains (proj p) s = true := by
  cases arg with
  | none => simp [applyFilter]
  | some s =>
    by_cases hs : s = ""
    · subst hs
      simp [applyFilter, strContains_empty]
    · simp [applyFilter, hs, List.mem_filter]

theorem applyFilter_nil (proj : Post → String) (arg : Option String) :
    applyFilter proj arg [] = [] := by
  cases arg <;> simp [applyFilter]

theorem acceptOk_eq_false_of (h : String)
    (hnp : ∀ p ∈ (splitOnChar ',' h.toList).map mediaRange,
      patMatches p "application/json".toList = false) :
    acceptOk (some h) ["application/json"] = false := by
  simp only [acceptOk, List.any_cons, List.any_nil, Bool.or_false]
  refine List.any_eq_false.mpr fun p hp => ?_
  rw [hnp p hp]
  exact Bool.false_ne_true

theorem validatePost_ok (o : JObj) (t b : String)
    (ht : lookupKey o "title" = some (.jstr t))
    (hb : lookupKey o "body" = some (.jstr b)) :
    validatePost o = .ok () := by
  simp [validatePost, checkKey, ht, hb, isString]

theorem validatePost_error_of (o : JObj) (hbad : schemaViolated o) :
    ∃ m, validatePost o = .error m ∧ identifiesViolation o m := by
  unfold validatePost checkKey
  cases h1 : lookupKey o "title" with
  | none =>
    exact ⟨requiredMsg "title", rfl, Or.inl ⟨h1, rfl⟩⟩
  | some v =>
    by_cases hv : isString v = true
    · simp only [hv, if_true]
      cases h2 : lookupKey o "body" with
      | none =>
        exact ⟨requiredMsg "body", rfl, Or.inr (Or.inl ⟨h2, rfl⟩)⟩
      | some w =>
        by_cases hw : isString w = true
        · exfalso
          rcases hbad with hbad | hbad | ⟨v', hv', hvs⟩ | ⟨w', hw', hws⟩
          · exact Option.noConfusion (h1 ▸ hbad)
          · exact Option.noConfusion (h2 ▸ hbad)
          · rw [h1] at hv'
            cases Option.some.inj hv'
            rw [hv] at hvs
            exact Bool.noConfusion hvs
          · rw [h2] at hw'
            cases Option.some.inj hw'
            rw [hw] at hws
            exact Bool.noConfusion hws
        · refine ⟨typeMsg w, by simp [hw], ?_⟩
          exact Or.inr (Or.inr (Or.inr ⟨w, h2, by simpa using hw, rfl⟩))
    · refine ⟨typeMsg v, by simp [hv], ?_⟩
      exact Or.inr (Or.inr (Or.inl ⟨v, h1, by simpa using hv, rfl⟩))

theorem mem_eraseP_of_nodup (posts : List Post) (id : Nat)
    (hnd : (posts.map Post.id).Nodup) (q : Post) :
    q ∈ posts.eraseP (fun p => p.id == id) ↔ q ∈ posts ∧ q.id ≠ id := by
  induction posts with
  | nil => simp
  | cons p ps ih =>
    simp only [List.map_cons, List.nodup_cons] at hnd
    obtain ⟨hpid, hnd'⟩ := hnd
    rw [List.eraseP_cons]
    by_cases hp : p.id = id
    · simp only [hp, beq_self_eq_true, cond_true]
      constructor
      · intro hq
        refine ⟨List.mem_cons_of_mem _ hq, fun hqid => ?_⟩
        exact hpid (List.mem_map.mpr ⟨q, hq, by rw [hqid, hp]⟩)
      · rintro ⟨hq, hne⟩
        rcases List.mem_cons.mp hq with rfl | hq
        · exact absurd hp hne
        · exact hq
    · have hbeq : (p.id == id) = false := by simpa using hp
      simp only [hbeq, cond_false, List.mem_cons, ih hnd']
      constructor
      · rintro (rfl | ⟨hq, hne⟩)
        · exact ⟨Or.inl rfl, hp⟩
        · exact ⟨Or.inr hq, hne⟩
      · rintro ⟨rfl | hq, hne⟩
        · exact Or.inl rfl
        · exact Or.inr ⟨hq, hne⟩

/-! ### The claims -/

/-- C2: every request to any of the five endpoints whose Accept header is
present and contains no pattern matching application/json gets status 406,
content-type application/json, body `{"message": "Request must accept
application/json data"}`, and the wrapped endpoint body never runs (the
store is returned unchanged, whatever the path, method or body). -/
theorem accept_guard_rejects_unacceptable (store : Store) (req : Request) (id : Nat)
    (h : String) (hh : req.accept = some h)
    (hnp : ∀ p ∈ (splitOnChar ',' h.toList).map mediaRange,
      patMatches p "application/json".toList = false) :
    posts_get store req =
      ({ body := .message "Request must accept application/json data",
         status := 406, mimetype := "application/json", location := none }, store) ∧
    post_get store req id =
      ({ body := .message "Request must accept application/json data",
         status := 406, mimetype := "application/json", location := none }, store) ∧
    post_delete store req id =
      ({ body := .message "Request must accept application/json data",
         status := 406, mimetype := "application/json", location := none }, store) ∧
    posts_post store req =
      ({ body := .message "Request must accept application/json data",
         status := 406, mimetype := "application/json", location := none }, store) ∧
    post_put store req id =
      some ({ body := .message "Request must accept application/json data",
              status := 406, mimetype := "application/json", location := none }, store) := by
  have hA : acceptOk req.accept ["application/json"] = false := by
    rw [hh]
    exact acceptOk_eq_false_of h hnp
  have hR : notAcceptableResp "application/json" =
      { body := .message "Request must accept application/json data",
        status := 406, mimetype := "application/json", location := none } := by decide
  refine ⟨?_, ?_, ?_, ?_, ?_⟩ <;>
    simp [posts_get, post_get, post_delete, posts_post, post_put, hA, hR]

/-- Witness for C2 at a concrete request carrying `Accept: application/xml`. -/
theorem accept_guard_rejects_unacceptable_witness :
    (∀ p ∈ (splitOnChar ',' "application/xml".toList).map mediaRange,
        patMatches p "application/json".toList = false) ∧
    posts_get ⟨[], 1⟩ ⟨some "application/xml", none, [], none, none⟩ =
      ({ body := .message "Request must accept application/json data",
         status := 406, mimetype := "application/json", location := none }, ⟨[], 1⟩) :=
  ⟨by decide,
    (accept_guard_rejects_unacceptable ⟨[], 1⟩
      ⟨some "application/xml", none, [], none, none⟩ 1 "application/xml" rfl (by decide)).1⟩

/-- C3 as stated is false on the code: a POST whose Content-Type is not
application/json but whose Accept header is also unacceptable is
answered by the Accept-guard with 406, not 415. -/
theorem require_guard_claim_counterexample :
    mediaRange "text/plain".toList ≠ "application/json".toList ∧
    (posts_post ⟨[], 1⟩ ⟨some "text/html", some "text/plain", [], none, none⟩).1.status = 406 ∧
    (posts_post ⟨[], 1⟩ ⟨some "text/html", some "text/plain", [], none, none⟩).1.status ≠ 415 := by
  decide

/-- C3 (amended): every POST or PUT request with an acceptable Accept
header whose Content-Type's type+subtype is not exactly application/json
(parameters ignored, absent header included) gets status 415,
content-type application/json, body `{"message": "Request must contain
application/json data"}`, with the store unchanged and the response
independent of the request body — so before any schema validation or
persistence operation runs. -/
theorem require_guard_rejects_wrong_content_type (store : Store) (req : Request) (id : Nat)
    (hacc : acceptOk req.accept ["application/json"] = true)
    (hct : ∀ c, req.contentType = some c →
      mediaRange c.toList ≠ "application/json".toList) :
    posts_post store req =
      ({ body := .message "Request must contain application/json data",
         status := 415, mimetype := "application/json", location := none }, store) ∧
    post_put store req id =
      some ({ body := .message "Request must contain application/json data",
              status := 415, mimetype := "application/json", location := none }, store) := by
  have hRf : requireOk req.contentType "application/json" = false := by
    cases hc : req.contentType with
    | none => rfl
    | some c =>
      simp only [requireOk]
      exact beq_eq_false_iff_ne.mpr (hct c hc)
  have hR : unsupportedResp "application/json" =
      { body := .message "Request must contain application/json data",
        status := 415, mimetype := "application/json", location := none } := by decide
  constructor <;> simp [posts_post, post_put, hacc, hRf, hR]

/-- Witness for the amended C3 at a concrete request carrying
`Content-Type: text/plain` with an acceptable Accept header. -/
theorem require_guard_rejects_wrong_content_type_witness :
    acceptOk (some "application/json") ["application/json"] = true ∧
    (∀ c, (some "text/plain" : Option String) = some c →
      mediaRange c.toList ≠ "application/json".toList) ∧
    posts_post ⟨[], 1⟩ ⟨some "application/json", some "text/plain", [], none, none⟩ =
      ({ body := .message "Request must contain application/json data",
         status := 415, mimetype := "application/json", location := none }, ⟨[], 1⟩) :=
  ⟨by decide, fun c hc => by cases hc; decide,
    (require_guard_rejects_wrong_content_type ⟨[], 1⟩
      ⟨some "application/json", some "text/plain", [], none, none⟩ 1
      (by decide) (fun c hc => by cases hc; decide)).1⟩

/-- C4: on POST and PUT a request failing both the Accept check and the
Content-Type check receives the Accept-guard's 406 response, never the
415 one: the Accept-guard is evaluated first. -/
theorem accept_guard_precedes_require_guard (store : Store) (req : Request) (id : Nat)
    (haccF : acceptOk req.accept ["application/json"] = false)
    (_hctF : requireOk req.contentType "application/json" = false) :
    (posts_post store req).1.status = 406 ∧
    (posts_post store req).1.status ≠ 415 ∧
    (post_put store req id).map (fun r => r.1.status) = some 406 ∧
    posts_post store req = (notAcceptableResp "application/json", store) ∧
    post_put store req id = some (notAcceptableResp "application/json", store) := by
  have h4 : posts_post store req = (notAcceptableResp "application/json", store) := by
    simp [posts_post, haccF]
  have h5 : post_put store req id = some (notAcceptableResp "application/json", store) := by
    simp [post_put, haccF]
  refine ⟨by rw [h4]; rfl, by rw [h4]; simp [notAcceptableResp], by rw [h5]; rfl, h4, h5⟩

/-- Witness for C4 at a concrete request failing both checks. -/
theorem accept_guard_precedes_require_guard_witness :
    acceptOk (some "text/html") ["application/json"] = false ∧
    requireOk (some "text/plain") "application/json" = false ∧
    (posts_post ⟨[], 1⟩ ⟨some "text/html", some "text/plain", [], none, none⟩).1.status = 406 :=
  ⟨by decide, by decide,
    (accept_guard_precedes_require_guard ⟨[], 1⟩
      ⟨some "text/html", some "text/plain", [], none, none⟩ 1 (by decide) (by decide)).1⟩

/-- C1: a POST or PUT request passing both guards whose decoded body is
missing `title` or `body`, or binds either to a non-string, is answered
with 422, content-type application/json, body `{"message": m}` where `m`
identifies the violated constraint, and the store is returned unchanged:
nothing is added, deleted or committed. -/
theorem validator_rejects_malformed_body (store : Store) (req : Request) (id : Nat)
    (hacc : acceptOk req.accept ["application/json"] = true)
    (hct : requireOk req.contentType "application/json" = true)
    (hbad : schemaViolated req.reqBody) :
    ∃ m, identifiesViolation req.reqBody m ∧
      posts_post store req =
        ({ body := .message m, status := 422,
           mimetype := "application/json", location := none }, store) ∧
      post_put store req id =
        some ({ body := .message m, status := 422,
                mimetype := "application/json", location := none }, store) := by
  obtain ⟨m, hval, hid⟩ := validatePost_error_of req.reqBody hbad
  refine ⟨m, hid, ?_, ?_⟩ <;> simp [posts_post, post_put, hacc, hct, hval]

/-- Witness for C1 at a concrete body missing the `title` key. -/
theorem validator_rejects_malformed_body_witness :
    schemaViolated [("body", JVal.jstr "B")] ∧
    (∃ m, identifiesViolation [("body", JVal.jstr "B")] m ∧
      posts_post ⟨[], 1⟩
          ⟨some "application/json", some "application/json",
           [("body", JVal.jstr "B")], none, none⟩ =
        ({ body := .message m, status := 422,
           mimetype := "application/json", location := none }, ⟨[], 1⟩)) := by
  refine ⟨Or.inl rfl, ?_⟩
  obtain ⟨m, hid, h1, _⟩ := validator_rejects_malformed_body ⟨[], 1⟩
    ⟨some "application/json", some "application/json",
     [("body", JVal.jstr "B")], none, none⟩ 1 (by decide) (by decide) (Or.inl rfl)
  exact ⟨m, hid, h1⟩

/-- C5: when no post with the given id is in the store, GET and DELETE on
/api/posts/<id> (with an acceptable Accept header) both answer 404 with
content-type application/json and body `{"message": "Could not find post
with id <id>"}`, and the store is returned unchanged. -/
theorem unknown_id_get_delete_404 (store : Store) (req : Request) (id : Nat)
    (hacc : acceptOk req.accept ["application/json"] = true)
    (hnone : ∀ p ∈ store.posts, p.id ≠ id) :
    post_get store req id =
      ({ body := .message ("Could not find post with id " ++ toString id),
         status := 404, mimetype := "application/json", location := none }, store) ∧
    post_delete store req id =
      ({ body := .message ("Could not find post with id " ++ toString id),
         status := 404, mimetype := "application/json", location := none }, store) := by
  have hg : store.getPost id = none := by
    rw [Store.getPost, List.find?_eq_none]
    intro p hp
    simpa using hnone p hp
  constructor <;> simp [post_get, post_delete, hacc, hg, notFoundResp]

/-- Witness for C5 at a concrete store holding only the post with id 2. -/
theorem unknown_id_get_delete_404_witness :
    (∀ p ∈ ({ posts := [⟨2, "t", "b"⟩], nextId := 3 } : Store).posts, p.id ≠ 1) ∧
    post_get ⟨[⟨2, "t", "b"⟩], 3⟩ ⟨some "application/json", none, [], none, none⟩ 1 =
      ({ body := .message ("Could not find post with id " ++ toString 1),
         status := 404, mimetype := "application/json", location := none },
       ⟨[⟨2, "t", "b"⟩], 3⟩) :=
  ⟨by decide,
    (unknown_id_get_delete_404 ⟨[⟨2, "t", "b"⟩], 3⟩
      ⟨some "application/json", none, [], none, none⟩ 1 (by decide) (by decide)).1⟩

/-- C6: when a post with the given id is in the store (ids being unique,
as the primary key guarantees), DELETE on /api/posts/<id> with an
acceptable Accept header removes exactly that post and answers 200 with
`{"message": "Deleted post with id <id>"}`; a subsequent GET of the same
id on the resulting store finds no post and answers 404. -/
theorem delete_known_id_removes_post (store : Store) (req req2 : Request) (id : Nat) (p : Post)
    (hacc : acceptOk req.accept ["application/json"] = true)
    (hacc2 : acceptOk req2.accept ["application/json"] = true)
    (hnd : (store.posts.map Post.id).Nodup)
    (hp : store.getPost id = some p) :
    ∃ store' : Store,
      post_delete store req id =
        ({ body := .message ("Deleted post with id " ++ toString id),
           status := 200, mimetype := "application/json", location := none }, store') ∧
      store'.nextId = store.nextId ∧
      (∀ q : Post, q ∈ store'.posts ↔ q ∈ store.posts ∧ q.id ≠ id) ∧
      post_get store' req2 id =
        ({ body := .message ("Could not find post with id " ++ toString id),
           status := 404, mimetype := "application/json", location := none }, store') := by
  refine ⟨{ store with posts := store.posts.eraseP (fun q => q.id == id) }, ?_, rfl, ?_, ?_⟩
  · simp [post_delete, hacc, hp]
  · exact mem_eraseP_of_nodup store.posts id hnd
  · have hg : ({ store with posts := store.posts.eraseP (fun q => q.id == id) } : Store).getPost id = none := by
      rw [Store.getPost, List.find?_eq_none]
      intro q hq
      have := (mem_eraseP_of_nodup store.posts id hnd q).mp hq
      simpa using this.2
    simp [post_get, hacc2, hg, notFoundResp]

/-- Witness for C6 at a concrete one-post store. -/
theorem delete_known_id_removes_post_witness :
    (([⟨1, "t", "b"⟩] : List Post).map Post.id).Nodup ∧
    (⟨[⟨1, "t", "b"⟩], 2⟩ : Store).getPost 1 = some ⟨1, "t", "b"⟩ ∧
    (∃ store' : Store,
      post_delete ⟨[⟨1, "t", "b"⟩], 2⟩ ⟨some "application/json", none, [], none, none⟩ 1 =
        ({ body := .message ("Deleted post with id " ++ toString 1),
           status := 200, mimetype := "application/json", location := none }, store') ∧
      store'.nextId = (⟨[⟨1, "t", "b"⟩], 2⟩ : Store).nextId ∧
      (∀ q : Post, q ∈ store'.posts ↔ q ∈ (⟨[⟨1, "t", "b"⟩], 2⟩ : Store).posts ∧ q.id ≠ 1) ∧
      post_get store' ⟨some "application/json", none, [], none, none⟩ 1 =
        ({ body := .message ("Could not find post with id " ++ toString 1),
           status := 404, mimetype := "application/json", location := none }, store')) :=
  ⟨by decide, by decide,
    delete_known_id_removes_post ⟨[⟨1, "t", "b"⟩], 2⟩
      ⟨some "application/json", none, [], none, none⟩
      ⟨some "application/json", none, [], none, none⟩ 1 ⟨1, "t", "b"⟩
      (by decide) (by decide) (by decide) (by decide)⟩

/-- C7: GET /api/posts with an acceptable Accept header answers 200 with
exactly the posts whose title contains the `title_like` substring (when
present) and whose body contains the `content_like` substring (when
present), both case-sensitive, ordered by id ascending; on an empty
store the array is empty. The store is returned unchanged. -/
theorem list_posts_filtered_sorted (store : Store) (req : Request)
    (hacc : acceptOk req.accept ["application/json"] = true) :
    ∃ l : List Post,
      posts_get store req =
        ({ body := .records l, status := 200,
           mimetype := "application/json", location := none }, store) ∧
      (∀ p : Post, p ∈ l ↔ p ∈ store.posts ∧
        (∀ s, req.title_like = some s → strContains p.title s = true) ∧
        (∀ s, req.content_like = some s → strContains p.body s = true)) ∧
      List.Sorted byId l ∧
      (store.posts = [] → l = []) := by
  refine ⟨sortById (applyFilter Post.body req.content_like
      (applyFilter Post.title req.title_like store.posts)), ?_, ?_, ?_, ?_⟩
  · simp [posts_get, hacc]
  · intro p
    simp only [sortById, List.mem_insertionSort, mem_applyFilter, and_assoc]
  · exact List.sorted_insertionSort byId _
  · intro h0
    rw [h0, applyFilter_nil, applyFilter_nil]
    rfl

/-- Witness for C7 at the test suite's combined-filter store. -/
theorem list_posts_filtered_sorted_witness :
    acceptOk (some "application/json") ["application/json"] = true ∧
    (∃ l : List Post,
      posts_get ⟨[⟨1, "Post with bells", "hat hat hat"⟩,
                  ⟨2, "Post with whistles", "cat cat cat"⟩,
                  ⟨3, "Post with bells and whistles", "hat cat hat cat"⟩], 4⟩
          ⟨some "application/json", none, [], some "whistles", some "hat"⟩ =
        ({ body := .records l, status := 200,
           mimetype := "application/json", location := none },
         ⟨[⟨1, "Post with bells", "hat hat hat"⟩,
           ⟨2, "Post with whistles", "cat cat cat"⟩,
           ⟨3, "Post with bells and whistles", "hat cat hat cat"⟩], 4⟩) ∧
      (∀ p : Post, p ∈ l ↔ p ∈ [⟨1, "Post with bells", "hat hat hat"⟩,
                  ⟨2, "Post with whistles", "cat cat cat"⟩,
                  ⟨3, "Post with bells and whistles", "hat cat hat cat"⟩] ∧
        (∀ s, (some "whistles" : Option String) = some s → strContains p.title s = true) ∧
        (∀ s, (some "hat" : Option String) = some s → strContains p.body s = true)) ∧
      List.Sorted byId l ∧
      ([⟨1, "Post with bells", "hat hat hat"⟩,
        ⟨2, "Post with whistles", "cat cat cat"⟩,
        ⟨3, "Post with bells and whistles", "hat cat hat cat"⟩] = ([] : List Post) → l = [])) :=
  ⟨by decide,
    list_posts_filtered_sorted
      ⟨[⟨1, "Post with bells", "hat hat hat"⟩,
        ⟨2, "Post with whistles", "cat cat cat"⟩,
        ⟨3, "Post with bells and whistles", "hat cat hat cat"⟩], 4⟩
      ⟨some "application/json", none, [], some "whistles", some "hat"⟩ (by decide)⟩

/-- C8: a POST passing both guards whose body binds `title` and `body` to
strings t and b appends the new post, with the store-generated id, to
the store (and bumps the id generator, the commit being implicit in the
returned store) and answers 201 with the serialized record and a
Location header referencing the GET path of the new id. -/
theorem create_post_appends_and_201 (store : Store) (req : Request) (t b : String)
    (hacc : acceptOk req.accept ["application/json"] = true)
    (hct : requireOk req.contentType "application/json" = true)
    (ht : lookupKey req.reqBody "title" = some (.jstr t))
    (hb : lookupKey req.reqBody "body" = some (.jstr b)) :
    posts_post store req =
      ({ body := .record ⟨store.nextId, t, b⟩, status := 201,
         mimetype := "application/json",
         location := some ("/api/posts/" ++ toString store.nextId) },
       { posts := store.posts ++ [⟨store.nextId, t, b⟩], nextId := store.nextId + 1 }) := by
  have hval := validatePost_ok req.reqBody t b ht hb
  simp [posts_post, hacc, hct, hval, getString, ht, hb, postLocation]

/-- Witness for C8 at the empty store and the body `{"title":"A","body":"B"}`. -/
theorem create_post_appends_and_201_witness :
    lookupKey [("title", JVal.jstr "A"), ("body", JVal.jstr "B")] "title" = some (.jstr "A") ∧
    posts_post ⟨[], 1⟩
        ⟨some "application/json", some "application/json",
         [("title", JVal.jstr "A"), ("body", JVal.jstr "B")], none, none⟩ =
      ({ body := .record ⟨1, "A", "B"⟩, status := 201,
         mimetype := "application/json",
         location := some ("/api/posts/" ++ toString 1) },
       { posts := [] ++ [⟨1, "A", "B"⟩], nextId := 1 + 1 }) :=
  ⟨rfl,
    create_post_appends_and_201 ⟨[], 1⟩
      ⟨some "application/json", some "application/json",
       [("title", JVal.jstr "A"), ("body", JVal.jstr "B")], none, none⟩
      "A" "B" (by decide) (by decide) rfl rfl⟩

/-- C9: a PUT passing both guards whose body binds `title` and `body` to
strings t and b, when a post with the given id is in the store, mutates
that post in place — same position, same id, new title and body — leaves
every other position untouched, and answers 202 with the updated record
and a Location header referencing the resource. -/
theorem update_post_mutates_in_place_202 (store : Store) (req : Request) (id : Nat)
    (p : Post) (t b : String)
    (hacc : acceptOk req.accept ["application/json"] = true)
    (hct : requireOk req.contentType "application/json" = true)
    (ht : lookupKey req.reqBody "title" = some (.jstr t))
    (hb : lookupKey req.reqBody "body" = some (.jstr b))
    (hp : store.getPost id = some p) :
    ∃ store' : Store,
      post_put store req id =
        some ({ body := .record ⟨id, t, b⟩, status := 202,
                mimetype := "application/json",
                location := some ("/api/posts/" ++ toString id) }, store') ∧
      store'.nextId = store.nextId ∧
      (∀ i : Nat, store'.posts[i]? =
        (store.posts[i]?).map fun q => if q.id = id then ⟨id, t, b⟩ else q) ∧
      (⟨id, t, b⟩ : Post) ∈ store'.posts ∧
      (∀ q ∈ store.posts, q.id ≠ id → q ∈ store'.posts) := by
  have hval := validatePost_ok req.reqBody t b ht hb
  have hpid : p.id = id := by simpa using List.find?_some hp
  have hpmem : p ∈ store.posts := List.mem_of_find?_eq_some hp
  have hp' : ({ p with title := t, body := b } : Post) = ⟨id, t, b⟩ := by
    cases p
    simp_all
  refine ⟨{ store with posts := store.posts.map fun q => if q.id = id then ⟨id, t, b⟩ else q },
    ?_, rfl, ?_, ?_, ?_⟩
  · simp [post_put, hacc, hct, hval, hp, getString, ht, hb, postLocation, hp', hpid]
  · intro i
    simp [List.getElem?_map]
  · exact List.mem_map.mpr ⟨p, hpmem, by simp [hpid]⟩
  · intro q hq hne
    exact List.mem_map.mpr ⟨q, hq, by simp [hne]⟩

/-- Witness for C9 at a two-post store, updating the post with id 1. -/
theorem update_post_mutates_in_place_202_witness :
    (⟨[⟨1, "t", "b"⟩, ⟨2, "u", "c"⟩], 3⟩ : Store).getPost 1 = some ⟨1, "t", "b"⟩ ∧
    (∃ store' : Store,
      post_put ⟨[⟨1, "t", "b"⟩, ⟨2, "u", "c"⟩], 3⟩
          ⟨some "application/json", some "application/json",
           [("title", JVal.jstr "A"), ("body", JVal.jstr "B")], none, none⟩ 1 =
        some ({ body := .record ⟨1, "A", "B"⟩, status := 202,
                mimetype := "application/json",
                location := some ("/api/posts/" ++ toString 1) }, store') ∧
      store'.nextId = (⟨[⟨1, "t", "b"⟩, ⟨2, "u", "c"⟩], 3⟩ : Store).nextId ∧
      (∀ i : Nat, store'.posts[i]? =
        (([⟨1, "t", "b"⟩, ⟨2, "u", "c"⟩] : List Post)[i]?).map
          fun q => if q.id = 1 then ⟨1, "A", "B"⟩ else q) ∧
      (⟨1, "A", "B"⟩ : Post) ∈ store'.posts ∧
      (∀ q ∈ ([⟨1, "t", "b"⟩, ⟨2, "u", "c"⟩] : List Post), q.id ≠ 1 → q ∈ store'.posts)) :=
  ⟨by decide,
    update_post_mutates_in_place_202 ⟨[⟨1, "t", "b"⟩, ⟨2, "u", "c"⟩], 3⟩
      ⟨some "application/json", some "application/json",
       [("title", JVal.jstr "A"), ("body", JVal.jstr "B")], none, none⟩ 1
      ⟨1, "t", "b"⟩ "A" "B" (by decide) (by decide) rfl rfl (by decide)⟩

/-- C10: a PUT passing both guards and schema validation whose id matches
no post in the store returns no response at all — there is no not-found
branch, the lookup yields nothing and the field assignment on the
missing record faults before any commit, modelled as `none`. -/
theorem put_unknown_id_faults (store : Store) (req : Request) (id : Nat)
    (hacc : acceptOk req.accept ["application/json"] = true)
    (hct : requireOk req.contentType "application/json" = true)
    (hval : validatePost req.reqBody = .ok ())
    (hnone : ∀ p ∈ store.posts, p.id ≠ id) :
    post_put store req id = none := by
  have hg : store.getPost id = none := by
    rw [Store.getPost, List.find?_eq_none]
    intro p hp
    simpa using hnone p hp
  simp [post_put, hacc, hct, hval, hg]

/-- Witness for C10 at the empty store with a well-formed body. -/
theorem put_unknown_id_faults_witness :
    validatePost [("title", JVal.jstr "A"), ("body", JVal.jstr "B")] = .ok () ∧
    post_put ⟨[], 1⟩
        ⟨some "application/json", some "application/json",
         [("title", JVal.jstr "A"), ("body", JVal.jstr "B")], none, none⟩ 1 = none :=
  ⟨rfl,
    put_unknown_id_faults ⟨[], 1⟩
      ⟨some "application/json", some "application/json",
       [("title", JVal.jstr "A"), ("body", JVal.jstr "B")], none, none⟩ 1
      (by decide) (by decide) rfl (by decide)⟩

end BlogApi
